import Mathlib

/-!
Verification development for the cross-venue arbitrage bot.

The Python source is shallowly embedded: prices, fees and quantities become
rationals (`ℚ`), order books become lists of `(price, quantity)` pairs,
fallible exchange calls become `Option`-valued environment fields, and the
mutable state of `SafetyManager` / `TradingEngine` becomes explicit state
passing.  Every definition mirrors a specific function of the source files
named in its doc comment.
-/

namespace ArbBot

/-! ## Data model (`exchange_manager.ArbitrageOpportunity`) -/

/-- `ArbitrageOpportunity` dataclass from `exchange_manager.py`. -/
structure ArbitrageOpportunity where
  symbol : String
  buy_exchange : String
  sell_exchange : String
  buy_price : ℚ
  sell_price : ℚ
  potential_profit_pct : ℚ
  potential_profit_usd : ℚ
  max_quantity : ℚ
  timestamp : ℚ
  score : ℚ
deriving DecidableEq

/-! ## Scanner (`price_monitor.PriceMonitor`) -/

/-- Buy-side walk of `PriceMonitor._calculate_max_tradable_quantity`: accumulate
ask quantities while the level price is at or below the desired buy price; the
loop breaks at the first level that fails the condition (the book is assumed
sorted), so this is a take-while sum. -/
def walkBuyDepth (buyPrice : ℚ) : List (ℚ × ℚ) → ℚ
  | [] => 0
  | (price, quantity) :: rest =>
      if price ≤ buyPrice then quantity + walkBuyDepth buyPrice rest else 0

/-- Sell-side walk of `PriceMonitor._calculate_max_tradable_quantity`:
accumulate bid quantities while the level price is at or above the desired sell
price, breaking at the first failing level. -/
def walkSellDepth (sellPrice : ℚ) : List (ℚ × ℚ) → ℚ
  | [] => 0
  | (price, quantity) :: rest =>
      if sellPrice ≤ price then quantity + walkSellDepth sellPrice rest else 0

/-- `PriceMonitor._calculate_max_tradable_quantity`.  (The source also
accumulates `current_buy_cost` / `current_sell_revenue`, which are never read;
they are omitted.) -/
def calculateMaxTradableQuantity (buyPrice sellPrice : ℚ)
    (buyOrderBook sellOrderBook : List (ℚ × ℚ)) (maxTradeAmountUsd : ℚ) : ℚ :=
  let maxBuyQuantity := walkBuyDepth buyPrice buyOrderBook
  let maxSellQuantity := walkSellDepth sellPrice sellOrderBook
  let tradableQuantity := min maxBuyQuantity maxSellQuantity
  let maxQuantityFromUsd := if 0 < buyPrice then maxTradeAmountUsd / buyPrice else 0
  max 0 (min tradableQuantity maxQuantityFromUsd)

/-- The four weights of `RISK_CONFIG["opportunity_scoring_weights"]`. -/
structure ScoringWeights where
  profit : ℚ
  liquidity : ℚ
  volatility : ℚ
  historical_success : ℚ
deriving DecidableEq

/-- `PriceMonitor._score_opportunity`.  The fee arguments are parameters of the
source function that its body never reads; they are kept for fidelity. -/
def scoreOpportunity (w : ScoringWeights)
    (potentialProfitPct maxQuantity buyFee sellFee buyVolatility sellVolatility : ℚ) : ℚ :=
  let normalizedProfit := min (potentialProfitPct * 10) 100
  let normalizedLiquidity := min (maxQuantity / 10 * 100) 100
  let normalizedVolatility := max 0 (100 - (buyVolatility + sellVolatility) * 1000)
  let historicalSuccessScore : ℚ := 80
  normalizedProfit * w.profit +
    normalizedLiquidity * w.liquidity +
    normalizedVolatility * w.volatility +
    historicalSuccessScore * w.historical_success

/-- The configuration values read by `PriceMonitor._scan_for_opportunities`. -/
structure ScanConfig where
  min_profit_threshold : ℚ
  max_trade_amount_usd : ℚ
  weights : ScoringWeights
deriving DecidableEq

/-- One (symbol, buy venue, sell venue) iteration of the nested loops of
`PriceMonitor._scan_for_opportunities` (lines 134–211): the positivity guards
on the quoted ask/bid, the raw-spread guard `sell_price > buy_price`, the
fee-adjusted comparison, the profit threshold, the depth-bounded quantity and
its positivity guard, and finally the emitted opportunity.  (The `None` /
non-number ticker guards of the source are subsumed by passing the prices
directly.) -/
def scanPair (cfg : ScanConfig) (buyFee sellFee : ℚ)
    (symbol buyExchange sellExchange : String)
    (buyAsk : ℚ) (buyAsks : List (ℚ × ℚ))
    (sellBid : ℚ) (sellBids : List (ℚ × ℚ)) (now : ℚ) : Option ArbitrageOpportunity :=
  if buyAsk ≤ 0 then none
  else if sellBid ≤ 0 then none
  else if buyAsk < sellBid then
    let effectiveBuyPrice := buyAsk * (1 + buyFee)
    let effectiveSellPrice := sellBid * (1 - sellFee)
    if effectiveBuyPrice < effectiveSellPrice then
      let potentialProfitPct :=
        (effectiveSellPrice - effectiveBuyPrice) / effectiveBuyPrice * 100
      if cfg.min_profit_threshold * 100 < potentialProfitPct then
        let maxQuantity :=
          calculateMaxTradableQuantity buyAsk sellBid buyAsks sellBids cfg.max_trade_amount_usd
        if maxQuantity ≤ 0 then none
        else
          some { symbol := symbol
                 buy_exchange := buyExchange
                 sell_exchange := sellExchange
                 buy_price := buyAsk
                 sell_price := sellBid
                 potential_profit_pct := potentialProfitPct
                 potential_profit_usd := (effectiveSellPrice - effectiveBuyPrice) * maxQuantity
                 max_quantity := maxQuantity
                 timestamp := now
                 score := scoreOpportunity cfg.weights potentialProfitPct maxQuantity
                   buyFee sellFee 0 0 }
      else none
    else none
  else none

/-! ## Safety manager (`safety_manager.SafetyManager`) -/

/-- The fields of `RISK_CONFIG` read by `SafetyManager`. -/
structure RiskConfig where
  circuit_breaker_enabled : Bool
  max_daily_loss_usd : ℚ
  max_consecutive_losses : ℕ
deriving DecidableEq

/-- The mutable state of `SafetyManager` relevant to the risk limits. -/
structure SafetyState where
  daily_profit_loss : ℚ
  consecutive_losses : ℕ
  circuit_breaker_active : Bool
deriving DecidableEq

/-- `SafetyManager._activate_circuit_breaker` (the logging/alerting side
effects are dropped; the guard makes activation idempotent). -/
def activate_circuit_breaker (s : SafetyState) : SafetyState :=
  if s.circuit_breaker_active then s else { s with circuit_breaker_active := true }

/-- `SafetyManager._check_risk_limits`. -/
def check_risk_limits (cfg : RiskConfig) (s : SafetyState) : SafetyState :=
  if cfg.circuit_breaker_enabled then
    if s.daily_profit_loss < -cfg.max_daily_loss_usd then
      activate_circuit_breaker s
    else if cfg.max_consecutive_losses ≤ s.consecutive_losses then
      activate_circuit_breaker s
    else s
  else s

/-- `SafetyManager.record_profit` (the `last_trade_time` update and alerting
are dropped). -/
def record_profit (s : SafetyState) (profitUsd : ℚ) : SafetyState :=
  { s with daily_profit_loss := s.daily_profit_loss + profitUsd
           consecutive_losses := 0 }

/-- `SafetyManager.record_loss`: subtract `abs(loss_usd)` from the daily P&L,
bump the consecutive-loss counter, then run `_check_risk_limits`. -/
def record_loss (cfg : RiskConfig) (s : SafetyState) (lossUsd : ℚ) : SafetyState :=
  check_risk_limits cfg
    { s with daily_profit_loss := s.daily_profit_loss - |lossUsd|
             consecutive_losses := s.consecutive_losses + 1 }

/-- `SafetyManager.deactivate_circuit_breaker`. -/
def deactivate_circuit_breaker (s : SafetyState) : SafetyState :=
  if s.circuit_breaker_active then
    { s with circuit_breaker_active := false, consecutive_losses := 0 }
  else s

/-- A trade-outcome notification delivered to the safety manager. -/
inductive SafetyEvent
  | profit (amount : ℚ)
  | loss (amount : ℚ)
deriving DecidableEq

/-- Apply one `record_profit` / `record_loss` call. -/
def applyEvent (cfg : RiskConfig) (s : SafetyState) : SafetyEvent → SafetyState
  | .profit a => record_profit s a
  | .loss a => record_loss cfg s a

/-- Apply a sequence of `record_profit` / `record_loss` calls in order. -/
def applyEvents (cfg : RiskConfig) (s : SafetyState) (es : List SafetyEvent) : SafetyState :=
  es.foldl (applyEvent cfg) s

/-! ## Bot-level executor (`arbitrage_bot.TradingEngine.execute_arbitrage_trade`) -/

/-- `arbitrage_bot.TradeStatus`. -/
inductive BotStatus
  | PENDING | EXECUTING_BUY | BUY_FILLED | EXECUTING_SELL | SELL_FILLED
  | COMPLETED | FAILED | CANCELLED
deriving DecidableEq

/-- A call into the safety manager (`record_profit` / `record_loss`) with the
argument the executor passed. -/
inductive SafetyCall
  | profitCall (amount : ℚ)
  | lossCall (amount : ℚ)
deriving DecidableEq

/-- The fields of `arbitrage_bot.Trade` the claims are about. -/
structure BotTrade where
  amount : ℚ
  buy_price : Option ℚ
  sell_price : Option ℚ
  actual_profit_usd : ℚ
  status : BotStatus
deriving DecidableEq

/-- Outcomes of the exchange calls made during one run of
`execute_arbitrage_trade`, plus the value returned by the (dynamically
dispatched) position-sizing call.
* `ticker_ask = none` models a failed `fetch_ticker` or a missing ask (the
  `raise ValueError` branch);
* `buy_order_price` is the validated buy-order price after the fetch-order
  fallback; `none` models the `raise ValueError` on a missing/invalid order;
* `sell_order_outcome = none` models `place_order` raising; `some none` models
  a falsy order object (the code then falls back to the opportunity's sell
  price without raising); `some (some p)` an order with price `p`. -/
structure ExecEnv where
  dynamic_trade_amount_usd : ℚ
  ticker_ask : Option ℚ
  buy_order_price : Option ℚ
  sell_order_outcome : Option (Option ℚ)
  buy_fee_rate : ℚ
  sell_fee_rate : ℚ
deriving DecidableEq

/-- Everything observable about one run of `execute_arbitrage_trade`:
the final trade object (`none` when the run returned before creating one),
the successive values assigned to `trade.status`, the safety-manager calls
made, whether each leg's `place_order` was invoked, and whether the trade was
appended to `completed_trades` in the `finally` block. -/
structure ExecResult where
  trade : Option BotTrade
  statusTrace : List BotStatus
  safetyCalls : List SafetyCall
  buyOrderPlaced : Bool
  sellOrderPlaced : Bool
  completedAppended : Bool
deriving DecidableEq

/-- The result of a run that returned before creating a trade (trading
disabled, circuit breaker active, or invalid buy price). -/
def skippedResult : ExecResult :=
  { trade := none, statusTrace := [], safetyCalls := [],
    buyOrderPlaced := false, sellOrderPlaced := false, completedAppended := false }

/-- The profit computation of `execute_arbitrage_trade` (STEP 3, lines
180–187): `revenue - cost - total_fees` with each leg's fee charged as
fee-rate × leg notional. -/
def settleProfit (amount buyPrice sellPrice buyFeeRate sellFeeRate : ℚ) : ℚ :=
  let revenue := amount * sellPrice
  let cost := amount * buyPrice
  let buyFee := amount * buyPrice * buyFeeRate
  let sellFee := amount * sellPrice * sellFeeRate
  revenue - cost - (buyFee + sellFee)

/-- `arbitrage_bot.TradingEngine.execute_arbitrage_trade` as a function of the
engine flag, the safety state, the opportunity and the exchange-call outcomes.
The `except` clause computes `potential_loss = -(amount * trade.buy_price)`
when `trade.buy_price` is truthy (set and nonzero) and `0.0` otherwise, and
passes it to `record_loss`; the `finally` clause appends the trade to the
completed history. -/
def executeArbitrageTrade (tradingEnabled : Bool) (safety : SafetyState)
    (opp : ArbitrageOpportunity) (env : ExecEnv) : ExecResult :=
  if !tradingEnabled then skippedResult
  else if safety.circuit_breaker_active then skippedResult
  else if opp.buy_price ≤ 0 then skippedResult
  else
    let amount := env.dynamic_trade_amount_usd / opp.buy_price
    match env.ticker_ask with
    | none =>
        -- fetch_ticker failed before any order: buy_price unset, loss 0.0
        { trade := some ⟨amount, none, none, 0, .FAILED⟩
          statusTrace := [.PENDING, .FAILED]
          safetyCalls := [.lossCall 0]
          buyOrderPlaced := false, sellOrderPlaced := false, completedAppended := true }
    | some _ask =>
        match env.buy_order_price with
        | none =>
            -- buy leg placed but failed validation: buy_price still unset
            { trade := some ⟨amount, none, none, 0, .FAILED⟩
              statusTrace := [.PENDING, .EXECUTING_BUY, .FAILED]
              safetyCalls := [.lossCall 0]
              buyOrderPlaced := true, sellOrderPlaced := false, completedAppended := true }
        | some bp =>
            match env.sell_order_outcome with
            | none =>
                -- sell leg raised: buy_price is set, worst-case loss reported
                let potentialLoss := if bp = 0 then 0 else -(amount * bp)
                { trade := some ⟨amount, some bp, none, 0, .FAILED⟩
                  statusTrace :=
                    [.PENDING, .EXECUTING_BUY, .BUY_FILLED, .EXECUTING_SELL, .FAILED]
                  safetyCalls := [.lossCall potentialLoss]
                  buyOrderPlaced := true, sellOrderPlaced := true, completedAppended := true }
            | some sellOrderPrice =>
                let sp := sellOrderPrice.getD opp.sell_price
                let profit := settleProfit amount bp sp env.buy_fee_rate env.sell_fee_rate
                { trade := some ⟨amount, some bp, some sp, profit, .COMPLETED⟩
                  statusTrace :=
                    [.PENDING, .EXECUTING_BUY, .BUY_FILLED, .EXECUTING_SELL,
                     .SELL_FILLED, .COMPLETED]
                  safetyCalls := [.profitCall profit]
                  buyOrderPlaced := true, sellOrderPlaced := true, completedAppended := true }

/-- Position of a `TradeStatus` in the bot executor's forward flow. -/
def botRank : BotStatus → ℕ
  | .PENDING => 0
  | .EXECUTING_BUY => 1
  | .BUY_FILLED => 2
  | .EXECUTING_SELL => 3
  | .SELL_FILLED => 4
  | .COMPLETED => 5
  | .FAILED => 6
  | .CANCELLED => 7

/-- Terminal statuses of the bot executor. -/
def botTerminal : BotStatus → Bool
  | .COMPLETED => true
  | .FAILED => true
  | .CANCELLED => true
  | _ => false

/-! ## Engine-level executor (`trading_engine.TradingEngine`) -/

/-- `trading_engine.TradeStatus`. -/
inductive EngStatus
  | PENDING | EXECUTING | COMPLETED | FAILED | PARTIALLY_FILLED | CANCELLED
deriving DecidableEq

/-- `trading_engine.OrderStatus`. -/
inductive OrdStatus
  | PENDING | PLACED | FILLED | PARTIALLY_FILLED | CANCELLED | FAILED
deriving DecidableEq

/-- What one `get_order_status` poll reports about an order, as classified by
`TradingEngine._update_order_status`: status `closed`, status `canceled`, a
positive filled amount, or none of these. -/
inductive ExchOrderView
  | CLOSED | CANCELED | PARTIAL_FILL | OPEN
deriving DecidableEq

/-- The status update of `TradingEngine._update_order_status`, which the
monitor loop only applies to orders still in the `PLACED` state. -/
def pollOrder (cur : OrdStatus) (obs : ExchOrderView) : OrdStatus :=
  if cur = .PLACED then
    match obs with
    | .CLOSED => .FILLED
    | .CANCELED => .CANCELLED
    | .PARTIAL_FILL => .PARTIALLY_FILLED
    | .OPEN => cur
  else cur

/-- The polling loop of `TradingEngine._monitor_trade_execution`: each list
element is one iteration's pair of observations; an exhausted list models the
timeout expiring.  Returns the trade status on loop exit (still `EXECUTING` on
timeout) together with the final order statuses. -/
def monitorTradeExecution :
    List (ExchOrderView × ExchOrderView) → OrdStatus → OrdStatus →
      EngStatus × OrdStatus × OrdStatus
  | [], b, s => (.EXECUTING, b, s)
  | (ob, os) :: rest, b, s =>
      let b' := pollOrder b ob
      let s' := pollOrder s os
      if b' = .FILLED ∧ s' = .FILLED then (.COMPLETED, b', s')
      else if b' = .FAILED ∨ s' = .FAILED then (.FAILED, b', s')
      else monitorTradeExecution rest b' s'

/-- `TradingEngine._cancel_order` applied by `_cancel_trade_orders` to orders
still `PLACED`. -/
def cancelIfPlaced (o : OrdStatus) : OrdStatus :=
  if o = .PLACED then .CANCELLED else o

/-- The fill test of `TradingEngine._handle_timeout`. -/
def orderFilled (o : OrdStatus) : Bool :=
  o = .FILLED ∨ o = .PARTIALLY_FILLED

/-- `TradingEngine._handle_timeout`: cancel unfilled legs, then classify. -/
def handleTimeout (b s : OrdStatus) : EngStatus :=
  let b' := cancelIfPlaced b
  let s' := cancelIfPlaced s
  if orderFilled b' ∧ orderFilled s' then .PARTIALLY_FILLED
  else if orderFilled b' ∨ orderFilled s' then .PARTIALLY_FILLED
  else .CANCELLED

/-- The order-book walk of `TradingEngine._estimate_slippage`: consume levels
until the requested amount is filled, accumulating `(filled, cost)`. -/
def walkFill (amount : ℚ) : List (ℚ × ℚ) → ℚ → ℚ → ℚ × ℚ
  | [], filled, cost => (filled, cost)
  | (levelPrice, levelQuantity) :: rest, filled, cost =>
      if amount ≤ filled + levelQuantity then
        (amount, cost + (amount - filled) * levelPrice)
      else
        walkFill amount rest (filled + levelQuantity) (cost + levelQuantity * levelPrice)

/-- `TradingEngine._estimate_slippage`.  `orderBook = none` models a falsy
order book (fetch failure), returning `0.0`; insufficient depth returns the
sentinel `1.0`; otherwise the relative deviation of the average fill price
from the quoted price (with the division guarded on `price > 0`). -/
def estimateSlippage (orderBook : Option (List (ℚ × ℚ))) (amount price : ℚ) : ℚ :=
  match orderBook with
  | none => 0
  | some levels =>
      let fc := walkFill amount levels 0 0
      if fc.1 < amount then 1
      else
        let averageFillPrice := fc.2 / amount
        let slippageAbs := |averageFillPrice - price|
        if 0 < price then slippageAbs / price else 0

/-- The configuration values read by `TradingEngine._execute_trade`. -/
structure EngConfig where
  pre_trade_slippage_estimation_threshold : ℚ
  adaptive_limit_order_aggressiveness : ℚ
deriving DecidableEq

/-- The fields of `trading_engine.ArbitrageTrade` and its two orders that
`_execute_trade` reads before placement. -/
structure EngTrade where
  amount : ℚ
  buyPrice : ℚ
  sellPrice : ℚ
  expectedProfitUsd : ℚ
  score : ℚ
deriving DecidableEq

/-- Environment of one `_execute_trade` run: the order books fetched for
slippage estimation, whether the concurrent placements succeed (a placement
exception propagates through `asyncio.gather`), and the monitor-loop
observations. -/
structure EngEnv where
  buyBook : Option (List (ℚ × ℚ))
  sellBook : Option (List (ℚ × ℚ))
  placementOk : Bool
  observations : List (ExchOrderView × ExchOrderView)
deriving DecidableEq

/-- Observable outcome of one `_execute_trade` run. -/
structure EngResult where
  status : EngStatus
  errorMessage : Option String
  ordersPlaced : Bool
  statusTrace : List EngStatus
deriving DecidableEq

/-- The trade status after `_monitor_trade_execution` followed by the
timeout handler of `_execute_trade` (both orders enter the monitor loop as
`PLACED`; `_handle_timeout` runs only when the loop exits still
`EXECUTING`). -/
def engineFinalStatus (obs : List (ExchOrderView × ExchOrderView)) : EngStatus :=
  let m := monitorTradeExecution obs .PLACED .PLACED
  if m.1 = .EXECUTING then handleTimeout m.2.1 m.2.2 else m.1

/-- `trading_engine.TradingEngine._execute_trade`: the pre-trade slippage
gate, adaptive limit pricing (which only adjusts prices, not the status flow),
concurrent placement, fill monitoring and timeout handling.  The trade enters
with status `PENDING`; the trace records every assignment to `trade.status`.
(The placement-failure error message is `str(e)` in the source, an
environment-dependent string.) -/
def engineExecuteTrade (cfg : EngConfig) (t : EngTrade) (env : EngEnv) : EngResult :=
  if 0 < t.expectedProfitUsd ∧
      cfg.pre_trade_slippage_estimation_threshold * t.expectedProfitUsd <
        estimateSlippage env.buyBook t.amount t.buyPrice +
          estimateSlippage env.sellBook t.amount t.sellPrice then
    { status := .FAILED, errorMessage := some "High estimated slippage",
      ordersPlaced := false, statusTrace := [.PENDING, .EXECUTING, .FAILED] }
  else if !env.placementOk then
    { status := .FAILED, errorMessage := some "placement error",
      ordersPlaced := true, statusTrace := [.PENDING, .EXECUTING, .FAILED] }
  else
    { status := engineFinalStatus env.observations, errorMessage := none,
      ordersPlaced := true,
      statusTrace := [.PENDING, .EXECUTING, engineFinalStatus env.observations] }

/-- Position of an `EngStatus` in the engine executor's forward flow. -/
def engRank : EngStatus → ℕ
  | .PENDING => 0
  | .EXECUTING => 1
  | .COMPLETED => 2
  | .PARTIALLY_FILLED => 3
  | .FAILED => 4
  | .CANCELLED => 5

/-- Terminal statuses of the engine executor. -/
def engTerminal : EngStatus → Bool
  | .COMPLETED => true
  | .FAILED => true
  | .PARTIALLY_FILLED => true
  | .CANCELLED => true
  | _ => false

/-! ## Dynamic position sizing -/

/-- Modelled from the spec: `SafetyManager.get_dynamic_trade_size` is invoked
by `TradingEngine.execute_arbitrage_trade` (`arbitrage_bot.py` line 98) but
has no definition anywhere in the source.  Per spec §4.4 it scales a base
trade notional up with `profit_pct` and down with `volatility`, and clamps the
result to `[min_trade_usd, 2 × base_trade_usd]`. -/
def get_dynamic_trade_size (minTradeUsd baseTradeUsd : ℚ) (symbol : String)
    (profitPct volatility : ℚ) : ℚ :=
  let scaled := baseTradeUsd * (1 + profitPct) - baseTradeUsd * volatility
  max minTradeUsd (min (2 * baseTradeUsd) scaled)

/-! ## Theorems -/

/-- C5: for buy_price = 45000, sell_price = 45100, amount = 0.1 and both fee
rates 0.001, the executor's settlement formula (revenue − cost − fees, fees
charged as fee-rate × leg notional) yields exactly
(45100 − 45000) × 0.1 − (45000 × 0.1 + 45100 × 0.1) × 0.001 = 0.99 USD. -/
theorem round_trip_profit_exact :
    settleProfit (1/10) 45000 45100 (1/1000) (1/1000) =
      (45100 - 45000) * (1/10) - (45000 * (1/10) + 45100 * (1/10)) * (1/1000) ∧
    settleProfit (1/10) 45000 45100 (1/1000) (1/1000) = 99/100 := by
  constructor <;> norm_num [settleProfit]

/-- C2: the scanner emits an opportunity for a venue pair only when the
fee-adjusted sell price strictly exceeds the fee-adjusted buy price and the
profit percentage is not below `min_profit_threshold × 100`; in particular,
when `effective_sell ≤ effective_buy` no opportunity is emitted. -/
theorem scanner_emits_only_profitable (cfg : ScanConfig) (buyFee sellFee : ℚ)
    (symbol bex sex : String) (ba : ℚ) (babook : List (ℚ × ℚ))
    (sb : ℚ) (sbbook : List (ℚ × ℚ)) (now : ℚ) :
    (∀ opp, scanPair cfg buyFee sellFee symbol bex sex ba babook sb sbbook now = some opp →
        ba * (1 + buyFee) < sb * (1 - sellFee) ∧
        cfg.min_profit_threshold * 100 ≤ opp.potential_profit_pct) ∧
    (sb * (1 - sellFee) ≤ ba * (1 + buyFee) →
        scanPair cfg buyFee sellFee symbol bex sex ba babook sb sbbook now = none) := by
  constructor
  · intro opp h
    simp only [scanPair] at h
    split_ifs at h with h1 h2 h3 h4 h5 h6 <;>
      first
      | exact Option.noConfusion h
      | (obtain rfl := Option.some.inj h
         exact ⟨h4, le_of_lt h5⟩)
  · intro hle
    simp only [scanPair]
    split_ifs with h1 h2 h3 h4 h5 h6 <;> try rfl
    exact absurd h4 (not_lt.mpr hle)

/-- C3: every emitted opportunity has a non-negative `max_quantity`, its buy
notional is capped by `max_trade_amount_usd`, and it is bounded by both
depth walks (ask levels priced at or below the buy price, bid levels priced at
or above the sell price, each walk stopping at the first failing level). -/
theorem emitted_opportunity_quantity_bounds (cfg : ScanConfig) (buyFee sellFee : ℚ)
    (symbol bex sex : String) (ba : ℚ) (babook : List (ℚ × ℚ))
    (sb : ℚ) (sbbook : List (ℚ × ℚ)) (now : ℚ) (opp : ArbitrageOpportunity)
    (h : scanPair cfg buyFee sellFee symbol bex sex ba babook sb sbbook now = some opp) :
    0 ≤ opp.max_quantity ∧
    opp.max_quantity * ba ≤ cfg.max_trade_amount_usd ∧
    opp.max_quantity ≤ walkBuyDepth ba babook ∧
    opp.max_quantity ≤ walkSellDepth sb sbbook := by
  simp only [scanPair] at h
  split_ifs at h with h1 h2 h3 h4 h5 h6 <;>
    try exact Option.noConfusion h
  obtain rfl := Option.some.inj h
  dsimp only
  have hba : 0 < ba := not_le.mp h1
  have hpos : 0 <
      calculateMaxTradableQuantity ba sb babook sbbook cfg.max_trade_amount_usd :=
    not_le.mp h6
  simp only [calculateMaxTradableQuantity, if_pos hba] at hpos ⊢
  set m := min (min (walkBuyDepth ba babook) (walkSellDepth sb sbbook))
      (cfg.max_trade_amount_usd / ba) with hm
  have hmpos : 0 < m := by
    by_contra hc
    rw [max_eq_left (not_lt.mp hc)] at hpos
    exact lt_irrefl 0 hpos
  have hqm : max 0 m = m := max_eq_right (le_of_lt hmpos)
  rw [hqm]
  refine ⟨le_of_lt hmpos, ?_, ?_, ?_⟩
  · have h1' : m ≤ cfg.max_trade_amount_usd / ba := min_le_right _ _
    calc m * ba ≤ cfg.max_trade_amount_usd / ba * ba :=
          mul_le_mul_of_nonneg_right h1' (le_of_lt hba)
      _ = cfg.max_trade_amount_usd := div_mul_cancel₀ _ (ne_of_gt hba)
  · exact le_trans (min_le_left _ _) (min_le_left _ _)
  · exact le_trans (min_le_left _ _) (min_le_right _ _)

/-- Witness for C2 at a concrete pair whose fee-adjusted sell price does not
exceed the fee-adjusted buy price (equal quotes, 0.1% fees). -/
theorem scanner_emits_only_profitable_witness :
    (100 : ℚ) * (1 - 1/1000) ≤ 100 * (1 + 1/1000) ∧
    scanPair ⟨1/1000, 100, ⟨0, 0, 0, 0⟩⟩ (1/1000) (1/1000) "BTCUSDT" "binance" "bybit"
      100 [(100, 1)] 100 [(100, 1)] 0 = none :=
  ⟨by norm_num,
   (scanner_emits_only_profitable ⟨1/1000, 100, ⟨0, 0, 0, 0⟩⟩ (1/1000) (1/1000)
     "BTCUSDT" "binance" "bybit" 100 [(100, 1)] 100 [(100, 1)] 0).2 (by norm_num)⟩

/-- Witness for C3 at a concrete emitted opportunity (buy 100, sell 102,
0.1% fees, one ask level and one bid level of quantity 1, 100 USD cap). -/
theorem emitted_opportunity_quantity_bounds_witness :
    scanPair ⟨1/1000, 100, ⟨0, 0, 0, 0⟩⟩ (1/1000) (1/1000) "BTCUSDT" "a" "b"
        100 [(100, 1)] 102 [(102, 1)] 0 =
      some ⟨"BTCUSDT", "a", "b", 100, 102, 1798/1001, 899/500, 1, 0, 0⟩ ∧
    (0 ≤ (⟨"BTCUSDT", "a", "b", 100, 102, 1798/1001, 899/500, 1, 0, 0⟩ :
        ArbitrageOpportunity).max_quantity ∧
     (⟨"BTCUSDT", "a", "b", 100, 102, 1798/1001, 899/500, 1, 0, 0⟩ :
        ArbitrageOpportunity).max_quantity * 100 ≤ (100 : ℚ) ∧
     (⟨"BTCUSDT", "a", "b", 100, 102, 1798/1001, 899/500, 1, 0, 0⟩ :
        ArbitrageOpportunity).max_quantity ≤ walkBuyDepth 100 [(100, 1)] ∧
     (⟨"BTCUSDT", "a", "b", 100, 102, 1798/1001, 899/500, 1, 0, 0⟩ :
        ArbitrageOpportunity).max_quantity ≤ walkSellDepth 102 [(102, 1)]) :=
  have h : scanPair ⟨1/1000, 100, ⟨0, 0, 0, 0⟩⟩ (1/1000) (1/1000) "BTCUSDT" "a" "b"
      100 [(100, 1)] 102 [(102, 1)] 0 =
      some ⟨"BTCUSDT", "a", "b", 100, 102, 1798/1001, 899/500, 1, 0, 0⟩ := by
    norm_num [scanPair, calculateMaxTradableQuantity, walkBuyDepth,
      walkSellDepth, scoreOpportunity]
  ⟨h, emitted_opportunity_quantity_bounds ⟨1/1000, 100, ⟨0, 0, 0, 0⟩⟩ (1/1000) (1/1000)
    "BTCUSDT" "a" "b" 100 [(100, 1)] 102 [(102, 1)] 0 _ h⟩

/-- `_activate_circuit_breaker` always leaves the breaker set. -/
theorem activate_breaker_true (s : SafetyState) :
    (activate_circuit_breaker s).circuit_breaker_active = true := by
  unfold activate_circuit_breaker
  split_ifs with h
  · exact h
  · rfl

/-- `_check_risk_limits` never changes the daily P&L accumulator. -/
theorem check_risk_limits_daily (cfg : RiskConfig) (s : SafetyState) :
    (check_risk_limits cfg s).daily_profit_loss = s.daily_profit_loss := by
  unfold check_risk_limits activate_circuit_breaker
  split_ifs <;> rfl

/-- `_check_risk_limits` never changes the consecutive-loss counter. -/
theorem check_risk_limits_consec (cfg : RiskConfig) (s : SafetyState) :
    (check_risk_limits cfg s).consecutive_losses = s.consecutive_losses := by
  unfold check_risk_limits activate_circuit_breaker
  split_ifs <;> rfl

/-- `_check_risk_limits` never clears an active breaker. -/
theorem check_risk_limits_breaker_mono (cfg : RiskConfig) (s : SafetyState)
    (h : s.circuit_breaker_active = true) :
    (check_risk_limits cfg s).circuit_breaker_active = true := by
  unfold check_risk_limits activate_circuit_breaker
  split_ifs <;> first | rfl | exact h

/-- `record_loss` subtracts the absolute loss from the daily P&L. -/
theorem record_loss_daily (cfg : RiskConfig) (s : SafetyState) (l : ℚ) :
    (record_loss cfg s l).daily_profit_loss = s.daily_profit_loss - |l| := by
  unfold record_loss
  rw [check_risk_limits_daily]

/-- `record_loss` bumps the consecutive-loss counter by one. -/
theorem record_loss_consec (cfg : RiskConfig) (s : SafetyState) (l : ℚ) :
    (record_loss cfg s l).consecutive_losses = s.consecutive_losses + 1 := by
  unfold record_loss
  rw [check_risk_limits_consec]

/-- With the breaker enabled, a `record_loss` call that leaves the daily P&L
below `-max_daily_loss_usd` activates the breaker. -/
theorem record_loss_activates_daily (cfg : RiskConfig) (s : SafetyState) (l : ℚ)
    (he : cfg.circuit_breaker_enabled = true)
    (hd : s.daily_profit_loss - |l| < -cfg.max_daily_loss_usd) :
    (record_loss cfg s l).circuit_breaker_active = true := by
  simp only [record_loss, check_risk_limits, he, if_true]
  split_ifs <;> exact activate_breaker_true _

/-- With the breaker enabled, a `record_loss` call that brings the
consecutive-loss counter to `max_consecutive_losses` or beyond activates the
breaker. -/
theorem record_loss_activates_consec (cfg : RiskConfig) (s : SafetyState) (l : ℚ)
    (he : cfg.circuit_breaker_enabled = true)
    (hc : cfg.max_consecutive_losses ≤ s.consecutive_losses + 1) :
    (record_loss cfg s l).circuit_breaker_active = true := by
  simp only [record_loss, check_risk_limits, he, if_true]
  split_ifs <;> exact activate_breaker_true _

/-- Neither `record_profit` nor `record_loss` ever clears an active breaker. -/
theorem applyEvents_breaker_mono (cfg : RiskConfig) (es : List SafetyEvent) :
    ∀ s : SafetyState, s.circuit_breaker_active = true →
      (applyEvents cfg s es).circuit_breaker_active = true := by
  induction es with
  | nil => intro s h; exact h
  | cons e es ih =>
      intro s h
      apply ih
      cases e with
      | profit a => exact h
      | loss a => exact check_risk_limits_breaker_mono _ _ h

/-- `deactivate_circuit_breaker` always leaves the breaker cleared. -/
theorem deactivate_clears (s : SafetyState) :
    (deactivate_circuit_breaker s).circuit_breaker_active = false := by
  unfold deactivate_circuit_breaker
  split_ifs with h
  · rfl
  · simpa using h

/-- C1: once a `record_loss` call drives the daily P&L below
`-max_daily_loss_usd` with the breaker enabled, the global circuit breaker is
active; it stays active under every further sequence of
`record_profit`/`record_loss` calls; while it is active every
`execute_arbitrage_trade` dispatch returns without creating a trade or placing
an order; and an explicit `deactivate_circuit_breaker` call clears it. -/
theorem circuit_breaker_latches_and_denies (cfg : RiskConfig) (s : SafetyState) (l : ℚ)
    (es : List SafetyEvent) (tradingEnabled : Bool)
    (opp : ArbitrageOpportunity) (env : ExecEnv)
    (he : cfg.circuit_breaker_enabled = true)
    (hd : (record_loss cfg s l).daily_profit_loss < -cfg.max_daily_loss_usd) :
    (record_loss cfg s l).circuit_breaker_active = true ∧
    (applyEvents cfg (record_loss cfg s l) es).circuit_breaker_active = true ∧
    executeArbitrageTrade tradingEnabled (applyEvents cfg (record_loss cfg s l) es) opp env
      = skippedResult ∧
    (deactivate_circuit_breaker
      (applyEvents cfg (record_loss cfg s l) es)).circuit_breaker_active = false := by
  rw [record_loss_daily] at hd
  have h1 : (record_loss cfg s l).circuit_breaker_active = true :=
    record_loss_activates_daily cfg s l he hd
  have h2 : (applyEvents cfg (record_loss cfg s l) es).circuit_breaker_active = true :=
    applyEvents_breaker_mono cfg es _ h1
  refine ⟨h1, h2, ?_, deactivate_clears _⟩
  cases tradingEnabled <;> simp [executeArbitrageTrade, h2]

/-- Witness for C1: default risk limits, a fresh state, one 600 USD loss, a
subsequent 1000 USD profit and a 5 USD loss; the breaker stays active, a
dispatch is skipped, and deactivation clears it. -/
theorem circuit_breaker_latches_witness :
    ((⟨true, 500, 3⟩ : RiskConfig).circuit_breaker_enabled = true ∧
     (record_loss ⟨true, 500, 3⟩ ⟨0, 0, false⟩ 600).daily_profit_loss < -(500 : ℚ)) ∧
    ((record_loss ⟨true, 500, 3⟩ ⟨0, 0, false⟩ 600).circuit_breaker_active = true ∧
     (applyEvents ⟨true, 500, 3⟩ (record_loss ⟨true, 500, 3⟩ ⟨0, 0, false⟩ 600)
        [.profit 1000, .loss 5]).circuit_breaker_active = true ∧
     executeArbitrageTrade true
        (applyEvents ⟨true, 500, 3⟩ (record_loss ⟨true, 500, 3⟩ ⟨0, 0, false⟩ 600)
          [.profit 1000, .loss 5])
        ⟨"BTCUSDT", "a", "b", 100, 102, 2, 1, 1, 0, 50⟩ ⟨50, some 100, some 100, some (some 102), 0, 0⟩
       = skippedResult ∧
     (deactivate_circuit_breaker
        (applyEvents ⟨true, 500, 3⟩ (record_loss ⟨true, 500, 3⟩ ⟨0, 0, false⟩ 600)
          [.profit 1000, .loss 5])).circuit_breaker_active = false) :=
  have hd : (record_loss ⟨true, 500, 3⟩ ⟨0, 0, false⟩ 600).daily_profit_loss < -(500 : ℚ) := by
    rw [record_loss_daily]
    rw [abs_of_pos (by norm_num : (0 : ℚ) < 600)]
    norm_num
  ⟨⟨rfl, hd⟩,
   circuit_breaker_latches_and_denies ⟨true, 500, 3⟩ ⟨0, 0, false⟩ 600
     [.profit 1000, .loss 5] true ⟨"BTCUSDT", "a", "b", 100, 102, 2, 1, 1, 0, 50⟩
     ⟨50, some 100, some 100, some (some 102), 0, 0⟩ rfl hd⟩

/-- A nonempty run of `record_loss` calls whose length, added to the current
consecutive-loss counter, reaches `max_consecutive_losses` activates the
breaker (with the breaker enabled). -/
theorem losses_activate_aux (cfg : RiskConfig)
    (he : cfg.circuit_breaker_enabled = true) :
    ∀ (ls : List ℚ) (s : SafetyState), ls ≠ [] →
      cfg.max_consecutive_losses ≤ s.consecutive_losses + ls.length →
      (applyEvents cfg s (ls.map SafetyEvent.loss)).circuit_breaker_active = true := by
  intro ls
  induction ls with
  | nil => intro s h _; exact absurd rfl h
  | cons l ls ih =>
      intro s _ hle
      cases ls with
      | nil =>
          simp only [List.map_cons, List.map_nil, applyEvents, List.foldl, applyEvent]
          apply record_loss_activates_consec cfg s l he
          simpa using hle
      | cons l2 ls2 =>
          show (applyEvents cfg (record_loss cfg s l)
            ((l2 :: ls2).map SafetyEvent.loss)).circuit_breaker_active = true
          apply ih
          · simp
          · rw [record_loss_consec]
            simp only [List.length_cons] at hle ⊢
            omega

/-- C6: starting from zero consecutive losses with the breaker enabled,
`max_consecutive_losses` consecutive `record_loss` calls (no interleaved
profit) leave the global breaker active; and any single `record_profit` call
resets the consecutive-loss counter to zero. -/
theorem consecutive_losses_trip_breaker (cfg : RiskConfig) (s : SafetyState)
    (ls : List ℚ)
    (he : cfg.circuit_breaker_enabled = true)
    (hn : 0 < cfg.max_consecutive_losses)
    (hz : s.consecutive_losses = 0)
    (hlen : ls.length = cfg.max_consecutive_losses) :
    (applyEvents cfg s (ls.map SafetyEvent.loss)).circuit_breaker_active = true ∧
    ∀ (s' : SafetyState) (p : ℚ), (record_profit s' p).consecutive_losses = 0 := by
  constructor
  · apply losses_activate_aux cfg he
    · intro h
      subst h
      simp at hlen
      omega
    · omega
  · intro s' p
    rfl

/-- Witness for C6: limit of two consecutive losses, two losses recorded. -/
theorem consecutive_losses_trip_breaker_witness :
    (applyEvents ⟨true, 500, 2⟩ ⟨0, 0, false⟩
        ([7, 8].map SafetyEvent.loss)).circuit_breaker_active = true ∧
    ∀ (s' : SafetyState) (p : ℚ), (record_profit s' p).consecutive_losses = 0 :=
  consecutive_losses_trip_breaker ⟨true, 500, 2⟩ ⟨0, 0, false⟩ [7, 8]
    rfl (by norm_num) rfl (by norm_num)

/-- The monitor loop exits only still-`EXECUTING` (timeout), `COMPLETED` or
`FAILED`. -/
theorem monitor_status_cases (obs : List (ExchOrderView × ExchOrderView)) :
    ∀ b s : OrdStatus, (monitorTradeExecution obs b s).1 = .EXECUTING ∨
      (monitorTradeExecution obs b s).1 = .COMPLETED ∨
      (monitorTradeExecution obs b s).1 = .FAILED := by
  induction obs with
  | nil => intro b s; exact Or.inl rfl
  | cons o rest ih =>
      intro b s
      obtain ⟨ob, os⟩ := o
      simp only [monitorTradeExecution]
      split_ifs with h1 h2
      · exact Or.inr (Or.inl rfl)
      · exact Or.inr (Or.inr rfl)
      · exact ih _ _

/-- The timeout handler classifies the trade as `PARTIALLY_FILLED` or
`CANCELLED`. -/
theorem handleTimeout_cases (b s : OrdStatus) :
    handleTimeout b s = .PARTIALLY_FILLED ∨ handleTimeout b s = .CANCELLED := by
  simp only [handleTimeout]
  split_ifs <;> simp

/-- After monitoring plus timeout handling the trade status is terminal
(rank at least 2). -/
theorem engineFinalStatus_rank (obs : List (ExchOrderView × ExchOrderView)) :
    2 ≤ engRank (engineFinalStatus obs) := by
  simp only [engineFinalStatus]
  rcases monitor_status_cases obs .PLACED .PLACED with h | h | h
  · rw [h, if_pos rfl]
    rcases handleTimeout_cases (monitorTradeExecution obs .PLACED .PLACED).2.1
        (monitorTradeExecution obs .PLACED .PLACED).2.2 with h2 | h2 <;>
      rw [h2] <;> norm_num [engRank]
  · rw [h, if_neg (fun hh => EngStatus.noConfusion hh)]
    norm_num [engRank]
  · rw [h, if_neg (fun hh => EngStatus.noConfusion hh)]
    norm_num [engRank]

/-- A three-entry engine trace ending in a rank-2-or-higher status is a
strictly increasing chain with non-terminal proper entries. -/
theorem eng_trace_ok (f : EngStatus) (hf : 2 ≤ engRank f) :
    List.Chain' (fun a b => engRank a < engRank b)
      [EngStatus.PENDING, .EXECUTING, f] ∧
    ∀ x ∈ ([EngStatus.PENDING, .EXECUTING, f] : List EngStatus).dropLast,
      engTerminal x = false := by
  constructor
  · refine List.chain'_cons.mpr ⟨by decide, List.chain'_cons.mpr ⟨?_, List.chain'_singleton _⟩⟩
    have h1 : engRank .EXECUTING = 1 := rfl
    omega
  · intro x hx
    simp only [List.dropLast, List.mem_cons, List.not_mem_nil, or_false] at hx
    rcases hx with rfl | rfl <;> rfl

/-- C4: along every run of either executor the sequence of statuses assigned
to a trade is strictly increasing in the forward order of the state machine —
no state is revisited — and every entry before the last is non-terminal, so a
terminal status (COMPLETED, FAILED, CANCELLED, PARTIALLY_FILLED) is never
left. -/
theorem trade_status_monotonic (tradingEnabled : Bool) (safety : SafetyState)
    (opp : ArbitrageOpportunity) (env : ExecEnv)
    (ecfg : EngConfig) (t : EngTrade) (eenv : EngEnv) :
    ((executeArbitrageTrade tradingEnabled safety opp env).statusTrace.Chain'
        (fun a b => botRank a < botRank b) ∧
      ∀ x ∈ (executeArbitrageTrade tradingEnabled safety opp env).statusTrace.dropLast,
        botTerminal x = false) ∧
    ((engineExecuteTrade ecfg t eenv).statusTrace.Chain'
        (fun a b => engRank a < engRank b) ∧
      ∀ x ∈ (engineExecuteTrade ecfg t eenv).statusTrace.dropLast,
        engTerminal x = false) := by
  constructor
  · obtain ⟨d, ta, bo, so, bfr, sfr⟩ := env
    simp only [executeArbitrageTrade]
    split_ifs <;>
      first
      | (dsimp only [skippedResult]
         norm_num [List.chain'_cons, List.chain'_singleton, List.chain'_nil,
           botRank, botTerminal, List.dropLast])
      | (cases ta <;> cases bo <;> cases so <;>
          (dsimp only
           norm_num [List.chain'_cons, List.chain'_singleton, List.chain'_nil,
             botRank, botTerminal, List.dropLast]))
  · simp only [engineExecuteTrade]
    split_ifs with h1 h2
    · exact eng_trace_ok .FAILED (by norm_num [engRank])
    · exact eng_trace_ok .FAILED (by norm_num [engRank])
    · exact eng_trace_ok _ (engineFinalStatus_rank _)

/-- C7 counterexample: a trade whose buy leg fails before any fill (so
`trade.buy_price` is never set) ends FAILED, yet the loss reported to the
safety manager is `0.0`, not the full buy-leg notional
`amount × buy_price = 0.5 × 100 = 50`. -/
theorem failed_before_fill_loss_counterexample :
    (executeArbitrageTrade true ⟨0, 0, false⟩
        ⟨"BTCUSDT", "a", "b", 100, 102, 2, 1, 1, 0, 50⟩
        ⟨50, some 100, none, none, 1/1000, 1/1000⟩).safetyCalls
      = [SafetyCall.lossCall 0] ∧
    (executeArbitrageTrade true ⟨0, 0, false⟩
        ⟨"BTCUSDT", "a", "b", 100, 102, 2, 1, 1, 0, 50⟩
        ⟨50, some 100, none, none, 1/1000, 1/1000⟩).trade.map BotTrade.status
      = some BotStatus.FAILED ∧
    (executeArbitrageTrade true ⟨0, 0, false⟩
        ⟨"BTCUSDT", "a", "b", 100, 102, 2, 1, 1, 0, 50⟩
        ⟨50, some 100, none, none, 1/1000, 1/1000⟩).trade.map BotTrade.buy_price
      = some none ∧
    (executeArbitrageTrade true ⟨0, 0, false⟩
        ⟨"BTCUSDT", "a", "b", 100, 102, 2, 1, 1, 0, 50⟩
        ⟨50, some 100, none, none, 1/1000, 1/1000⟩).trade.map BotTrade.amount
      = some (1/2) ∧
    (1/2 : ℚ) * 100 = 50 ∧ (0 : ℚ) ≠ 50 := by
  refine ⟨?_, ?_, ?_, ?_, by norm_num, by norm_num⟩ <;>
    norm_num [executeArbitrageTrade]

/-- C7 (amended): every dispatched trade is appended to the completed history
and triggers exactly one safety-manager call; a FAILED trade whose recorded
buy price is set and nonzero reports the full buy-leg notional
`-(amount × buy_price)` as the loss, while a trade failing before any fill
(buy price never recorded) reports a loss of `0.0`. -/
theorem failed_trade_loss_reporting (tradingEnabled : Bool) (safety : SafetyState)
    (opp : ArbitrageOpportunity) (env : ExecEnv) (t : BotTrade)
    (h : (executeArbitrageTrade tradingEnabled safety opp env).trade = some t) :
    (executeArbitrageTrade tradingEnabled safety opp env).completedAppended = true ∧
    (executeArbitrageTrade tradingEnabled safety opp env).safetyCalls.length = 1 ∧
    (t.status = .FAILED → t.buy_price = none →
      (executeArbitrageTrade tradingEnabled safety opp env).safetyCalls
        = [SafetyCall.lossCall 0]) ∧
    (∀ bp : ℚ, t.status = .FAILED → t.buy_price = some bp → bp ≠ 0 →
      (executeArbitrageTrade tradingEnabled safety opp env).safetyCalls
        = [SafetyCall.lossCall (-(t.amount * bp))]) := by
  obtain ⟨d, ta, bo, so, bfr, sfr⟩ := env
  simp only [executeArbitrageTrade] at h ⊢
  split_ifs at h ⊢ <;> try exact Option.noConfusion h
  cases ta with
  | none =>
      obtain rfl := Option.some.inj h
      refine ⟨rfl, rfl, fun _ _ => rfl, ?_⟩
      intro bp _ hbp _
      exact Option.noConfusion hbp
  | some a =>
    cases bo with
    | none =>
        obtain rfl := Option.some.inj h
        refine ⟨rfl, rfl, fun _ _ => rfl, ?_⟩
        intro bp _ hbp _
        exact Option.noConfusion hbp
    | some bp0 =>
      cases so with
      | none =>
          obtain rfl := Option.some.inj h
          refine ⟨rfl, rfl, ?_, ?_⟩
          · intro _ hbp
            exact Option.noConfusion hbp
          · intro bp _ hbp hne
            obtain rfl := Option.some.inj hbp
            simp [hne]
      | some spo =>
          obtain rfl := Option.some.inj h
          refine ⟨rfl, rfl, ?_, ?_⟩
          · intro hst _
            exact BotStatus.noConfusion hst
          · intro bp hst _ _
            exact BotStatus.noConfusion hst

/-- Witness for C7 (amended) at a concrete trade whose sell leg raises after
the buy fill at price 101 with amount 0.5: the reported loss is the full
buy-leg notional. -/
theorem failed_trade_loss_reporting_witness :
    (executeArbitrageTrade true ⟨0, 0, false⟩
        ⟨"BTCUSDT", "a", "b", 100, 102, 2, 1, 1, 0, 50⟩
        ⟨50, some 100, some 101, none, 0, 0⟩).trade
      = some ⟨1/2, some 101, none, 0, .FAILED⟩ ∧
    ((executeArbitrageTrade true ⟨0, 0, false⟩
        ⟨"BTCUSDT", "a", "b", 100, 102, 2, 1, 1, 0, 50⟩
        ⟨50, some 100, some 101, none, 0, 0⟩).completedAppended = true ∧
     (executeArbitrageTrade true ⟨0, 0, false⟩
        ⟨"BTCUSDT", "a", "b", 100, 102, 2, 1, 1, 0, 50⟩
        ⟨50, some 100, some 101, none, 0, 0⟩).safetyCalls.length = 1 ∧
     ((⟨1/2, some 101, none, 0, .FAILED⟩ : BotTrade).status = .FAILED →
      (⟨1/2, some 101, none, 0, .FAILED⟩ : BotTrade).buy_price = none →
      (executeArbitrageTrade true ⟨0, 0, false⟩
        ⟨"BTCUSDT", "a", "b", 100, 102, 2, 1, 1, 0, 50⟩
        ⟨50, some 100, some 101, none, 0, 0⟩).safetyCalls
        = [SafetyCall.lossCall 0]) ∧
     (∀ bp : ℚ, (⟨1/2, some 101, none, 0, .FAILED⟩ : BotTrade).status = .FAILED →
      (⟨1/2, some 101, none, 0, .FAILED⟩ : BotTrade).buy_price = some bp → bp ≠ 0 →
      (executeArbitrageTrade true ⟨0, 0, false⟩
        ⟨"BTCUSDT", "a", "b", 100, 102, 2, 1, 1, 0, 50⟩
        ⟨50, some 100, some 101, none, 0, 0⟩).safetyCalls
        = [SafetyCall.lossCall
            (-((⟨1/2, some 101, none, 0, .FAILED⟩ : BotTrade).amount * bp))])) :=
  have h : (executeArbitrageTrade true ⟨0, 0, false⟩
      ⟨"BTCUSDT", "a", "b", 100, 102, 2, 1, 1, 0, 50⟩
      ⟨50, some 100, some 101, none, 0, 0⟩).trade
      = some ⟨1/2, some 101, none, 0, .FAILED⟩ := by
    norm_num [executeArbitrageTrade]
  ⟨h, failed_trade_loss_reporting true ⟨0, 0, false⟩
    ⟨"BTCUSDT", "a", "b", 100, 102, 2, 1, 1, 0, 50⟩
    ⟨50, some 100, some 101, none, 0, 0⟩ ⟨1/2, some 101, none, 0, .FAILED⟩ h⟩

/-- C8: whenever the expected profit is positive and the summed per-leg
order-book slippage estimate exceeds the configured fraction of the expected
profit, `_execute_trade` aborts before placing any order, marking the trade
FAILED with the high-estimated-slippage reason. -/
theorem slippage_gate_aborts (cfg : EngConfig) (t : EngTrade) (env : EngEnv)
    (hp : 0 < t.expectedProfitUsd)
    (hs : cfg.pre_trade_slippage_estimation_threshold * t.expectedProfitUsd <
      estimateSlippage env.buyBook t.amount t.buyPrice +
        estimateSlippage env.sellBook t.amount t.sellPrice) :
    (engineExecuteTrade cfg t env).status = .FAILED ∧
    (engineExecuteTrade cfg t env).errorMessage = some "High estimated slippage" ∧
    (engineExecuteTrade cfg t env).ordersPlaced = false := by
  simp only [engineExecuteTrade]
  rw [if_pos ⟨hp, hs⟩]
  exact ⟨rfl, rfl, rfl⟩

/-- Witness for C8: expected profit 1 USD, threshold 0.001, thin books whose
walk yields average fill prices 110 (vs quote 100) and 95 (vs quote 102). -/
theorem slippage_gate_aborts_witness :
    ((0 : ℚ) < 1 ∧
      (1/1000 : ℚ) * 1 < estimateSlippage (some [(110, 2)]) 1 100 +
        estimateSlippage (some [(95, 2)]) 1 102) ∧
    ((engineExecuteTrade ⟨1/1000, 1/2000⟩ ⟨1, 100, 102, 1, 0⟩
        ⟨some [(110, 2)], some [(95, 2)], true, []⟩).status = .FAILED ∧
     (engineExecuteTrade ⟨1/1000, 1/2000⟩ ⟨1, 100, 102, 1, 0⟩
        ⟨some [(110, 2)], some [(95, 2)], true, []⟩).errorMessage
       = some "High estimated slippage" ∧
     (engineExecuteTrade ⟨1/1000, 1/2000⟩ ⟨1, 100, 102, 1, 0⟩
        ⟨some [(110, 2)], some [(95, 2)], true, []⟩).ordersPlaced = false) :=
  have hs : (1/1000 : ℚ) * 1 < estimateSlippage (some [(110, 2)]) 1 100 +
      estimateSlippage (some [(95, 2)]) 1 102 := by
    norm_num [estimateSlippage, walkFill, abs_of_nonneg, abs_of_nonpos]
  ⟨⟨by norm_num, hs⟩,
   slippage_gate_aborts ⟨1/1000, 1/2000⟩ ⟨1, 100, 102, 1, 0⟩
     ⟨some [(110, 2)], some [(95, 2)], true, []⟩ (by norm_num) hs⟩

/-- C9 counterexample: the claim quantifies the [0, 100] score range over
every input the scoring function accepts, but with the default weights (which
are non-negative and sum to 1) the input profit_pct = −100 (all other inputs
zero) yields score −372, outside [0, 100]. -/
theorem score_range_counterexample :
    ((0 : ℚ) ≤ 2/5 ∧ (0 : ℚ) ≤ 3/10 ∧ (0 : ℚ) ≤ 1/5 ∧ (0 : ℚ) ≤ 1/10 ∧
      (2/5 : ℚ) + 3/10 + 1/5 + 1/10 = 1) ∧
    scoreOpportunity ⟨2/5, 3/10, 1/5, 1/10⟩ (-100) 0 0 0 0 0 = -372 ∧
    ¬ (0 ≤ scoreOpportunity ⟨2/5, 3/10, 1/5, 1/10⟩ (-100) 0 0 0 0 0) := by
  refine ⟨by norm_num, ?_, ?_⟩ <;>
    norm_num [scoreOpportunity, min_def, max_def]

/-- C9 (amended): for non-negative profit_pct, max_quantity and volatilities —
under which all four normalized sub-scores lie in [0, 100] — and non-negative
weights summing to 1, the composite score lies in [0, 100]; quantified over
every accepted input the range claim fails (see the counterexample). -/
theorem score_range_amended (w : ScoringWeights) (p q bf sf bv sv : ℚ)
    (hp : 0 ≤ p) (hq : 0 ≤ q) (hbv : 0 ≤ bv) (hsv : 0 ≤ sv)
    (h1 : 0 ≤ w.profit) (h2 : 0 ≤ w.liquidity) (h3 : 0 ≤ w.volatility)
    (h4 : 0 ≤ w.historical_success)
    (hsum : w.profit + w.liquidity + w.volatility + w.historical_success = 1) :
    0 ≤ scoreOpportunity w p q bf sf bv sv ∧
    scoreOpportunity w p q bf sf bv sv ≤ 100 := by
  have hnp1 : 0 ≤ min (p * 10) 100 := le_min (by positivity) (by norm_num)
  have hnp2 : min (p * 10) 100 ≤ 100 := min_le_right _ _
  have hnl1 : 0 ≤ min (q / 10 * 100) 100 := le_min (by positivity) (by norm_num)
  have hnl2 : min (q / 10 * 100) 100 ≤ 100 := min_le_right _ _
  have hnv1 : 0 ≤ max 0 (100 - (bv + sv) * 1000) := le_max_left _ _
  have hnv2 : max 0 (100 - (bv + sv) * 1000) ≤ 100 := by
    apply max_le (by norm_num)
    nlinarith
  simp only [scoreOpportunity]
  constructor <;>
    nlinarith [mul_nonneg hnp1 h1, mul_nonneg hnl1 h2, mul_nonneg hnv1 h3,
      mul_le_mul_of_nonneg_right hnp2 h1, mul_le_mul_of_nonneg_right hnl2 h2,
      mul_le_mul_of_nonneg_right hnv2 h3]

/-- Witness for C9 (amended) at the default weights, profit_pct 1, quantity 1
and zero volatilities. -/
theorem score_range_amended_witness :
    0 ≤ scoreOpportunity ⟨2/5, 3/10, 1/5, 1/10⟩ 1 1 (1/1000) (1/1000) 0 0 ∧
    scoreOpportunity ⟨2/5, 3/10, 1/5, 1/10⟩ 1 1 (1/1000) (1/1000) 0 0 ≤ 100 :=
  score_range_amended ⟨2/5, 3/10, 1/5, 1/10⟩ 1 1 (1/1000) (1/1000) 0 0
    (by norm_num) (by norm_num) (by norm_num) (by norm_num)
    (by norm_num) (by norm_num) (by norm_num) (by norm_num) (by norm_num)

/-- C10: the (spec-modelled) dynamic position-sizing function returns an
amount clamped to [min_trade_usd, 2 × base_trade_usd], is monotonically
non-decreasing in profit_pct and non-increasing in volatility. -/
theorem dynamic_trade_size_clamped_monotone (minT base p p' v v' : ℚ)
    (symbol : String) (hb : 0 ≤ base) (hm : minT ≤ 2 * base) :
    (minT ≤ get_dynamic_trade_size minT base symbol p v ∧
      get_dynamic_trade_size minT base symbol p v ≤ 2 * base) ∧
    (p ≤ p' → get_dynamic_trade_size minT base symbol p v ≤
      get_dynamic_trade_size minT base symbol p' v) ∧
    (v ≤ v' → get_dynamic_trade_size minT base symbol p v' ≤
      get_dynamic_trade_size minT base symbol p v) := by
  simp only [get_dynamic_trade_size]
  refine ⟨⟨le_max_left _ _, max_le hm (min_le_left _ _)⟩, ?_, ?_⟩
  · intro hpp
    apply max_le_max le_rfl
    apply min_le_min le_rfl
    nlinarith
  · intro hvv
    apply max_le_max le_rfl
    apply min_le_min le_rfl
    nlinarith

/-- Witness for C10 at min 10, base 50, profit_pct 1 ≤ 2, volatility 0 ≤ 1. -/
theorem dynamic_trade_size_clamped_monotone_witness :
    ((10 : ℚ) ≤ get_dynamic_trade_size 10 50 "BTCUSDT" 1 0 ∧
      get_dynamic_trade_size 10 50 "BTCUSDT" 1 0 ≤ 2 * 50) ∧
    ((1 : ℚ) ≤ 2 → get_dynamic_trade_size 10 50 "BTCUSDT" 1 0 ≤
      get_dynamic_trade_size 10 50 "BTCUSDT" 2 0) ∧
    ((0 : ℚ) ≤ 1 → get_dynamic_trade_size 10 50 "BTCUSDT" 1 1 ≤
      get_dynamic_trade_size 10 50 "BTCUSDT" 1 0) :=
  dynamic_trade_size_clamped_monotone 10 50 1 2 0 1 "BTCUSDT"
    (by norm_num) (by norm_num)

end ArbBot
